import Mathlib

/-!
Shallow embedding of the specimen-review dashboard's state-orchestration core.

The definitions below are direct translations of the TypeScript source:
* `RecordsContext` (`RecordsProvider`): the orchestrator owning `records`,
  `loading`, `error` and `history`, with the `fetchRecords` and `updateRecord`
  operations.  Asynchronous network calls are modelled by passing the call's
  outcome (`ApiResult`) as an explicit argument; `new Date().toISOString()` is
  modelled by an explicit `now` argument.  React `setX` state updates become
  explicit state passing, and a thrown/propagated failure becomes the second
  component of the returned pair.
* `useFilteredRecords` / `useStatusCounts`: the pure derived-view functions
  (the `useMemo` wrapper is a caching detail with no semantic content).
* `RecordDetailDialog`: the detail editor's validation gate (`requiresNote`,
  `isValid`), the save button's `disabled` expression, and the synchronous
  prefix of `handleSave` up to the point where it either aborts on
  validation, closes as a no-op, or issues the `updateRecord` call with the
  computed dirty-field payload (`SaveAction`).

JavaScript's `String.prototype.trim` (removal of leading and trailing
whitespace) is modelled by `jsTrim`, acting on the string's character list.
-/

namespace Dashboard

/-- Review status of a specimen record (the `RecordStatus` union type):
`pending | approved | flagged | needs_revision`. -/
inductive RecordStatus where
  | pending
  | approved
  | flagged
  | needs_revision
deriving DecidableEq, Repr

/-- A specimen record (`RecordItem`): `{ id, name, description, status, note? }`.
The optional `note?: string` field is an `Option String`. -/
structure RecordItem where
  id : String
  name : String
  description : String
  status : RecordStatus
  note : Option String := none
deriving DecidableEq, Repr

/-- An audit entry (`RecordHistoryEntry`):
`{ id, previousStatus, newStatus, note?, timestamp }`. -/
structure RecordHistoryEntry where
  id : String
  previousStatus : RecordStatus
  newStatus : RecordStatus
  note : Option String
  timestamp : String
deriving DecidableEq, Repr

/-- The partial update payload `{ status?: RecordStatus; note?: string }`
passed to `updateRecord` and to `recordsApi.update`. -/
structure RecordUpdates where
  status : Option RecordStatus := none
  note : Option String := none
deriving DecidableEq, Repr

/-- The orchestrator's state, i.e. the four `useState` cells of
`RecordsProvider`: `records`, `loading`, `error`, `history`. -/
structure RecordsState where
  records : List RecordItem
  loading : Bool
  error : Option String
  history : List RecordHistoryEntry
deriving DecidableEq, Repr

/-- Outcome of an awaited network call: the resolved value, or a rejection
carrying the thrown error's message (`recordsApi` only ever throws
`new Error(message)`). -/
inductive ApiResult (α : Type) where
  | ok (value : α)
  | err (message : String)
deriving DecidableEq, Repr

/-- The state `fetchRecords` establishes before awaiting the network call:
`setLoading(true); setError(null)`. -/
def fetchRecordsStart (s : RecordsState) : RecordsState :=
  { s with loading := true, error := none }

/-- The `fetchRecords` operation of `RecordsProvider`, as a function of the
network call's outcome.  `try { setRecords(await fetchAll()) } catch
{ setError(message) } finally { setLoading(false) }`. -/
def fetchRecords (s : RecordsState) (result : ApiResult (List RecordItem)) :
    RecordsState :=
  let s1 := fetchRecordsStart s
  match result with
  | .ok nextRecords => { s1 with records := nextRecords, loading := false }
  | .err msg => { s1 with error := some msg, loading := false }

/-- The `updateRecord` operation of `RecordsProvider`, as a function of the
network call's outcome and of the current timestamp.  Returns the new state
together with the propagated (re-thrown) failure message, if any.

Field by field: `setError(null)`; snapshot `previousRecord` by
`records.find(r => r.id === id)`; on rejection set `error` to the message and
re-throw; on resolution `setRecords(prev => prev.map(r => r.id === updated.id
? updated : r))`, then, if the snapshot existed, `updates.status` was provided
and differs from the snapshot's status, `setHistory(prev => [...prev, entry])`
with `entry = { id, previousStatus, newStatus, note: updates.note,
timestamp: now }`. -/
def updateRecord (s : RecordsState) (id : String) (updates : RecordUpdates)
    (result : ApiResult RecordItem) (now : String) :
    RecordsState × Option String :=
  let s0 := { s with error := none }
  let previousRecord := s0.records.find? (fun r => r.id == id)
  match result with
  | .err msg => ({ s0 with error := some msg }, some msg)
  | .ok updated =>
    let s1 := { s0 with
      records := s0.records.map (fun r => if r.id = updated.id then updated else r) }
    match previousRecord, updates.status with
    | some prev, some newStatus =>
      if prev.status = newStatus then
        (s1, none)
      else
        ({ s1 with
            history := s1.history ++
              [{ id := id, previousStatus := prev.status, newStatus := newStatus,
                 note := updates.note, timestamp := now }] }, none)
    | _, _ => (s1, none)

/-- The filter argument of `useFilteredRecords`:
`"all" | RecordItem["status"]`. -/
inductive RecordStatusFilter where
  | all
  | status (s : RecordStatus)
deriving DecidableEq, Repr

/-- The pure computation performed by `useFilteredRecords`:
`filter === 'all' ? records : records.filter(r => r.status === filter)`. -/
def filterByStatus (records : List RecordItem) (filter : RecordStatusFilter) :
    List RecordItem :=
  match filter with
  | .all => records
  | .status s => records.filter (fun r => r.status == s)

/-- The per-status count object returned by `useStatusCounts`, with all four
keys always present. -/
structure StatusCounts where
  pending : Nat
  approved : Nat
  flagged : Nat
  needs_revision : Nat
deriving DecidableEq, Repr

/-- The `EMPTY_COUNTS` constant: all four counts zero. -/
def EMPTY_COUNTS : StatusCounts :=
  { pending := 0, approved := 0, flagged := 0, needs_revision := 0 }

/-- One loop step of `useStatusCounts`: `next[r.status] += 1`. -/
def bumpStatus (c : StatusCounts) (s : RecordStatus) : StatusCounts :=
  match s with
  | .pending => { c with pending := c.pending + 1 }
  | .approved => { c with approved := c.approved + 1 }
  | .flagged => { c with flagged := c.flagged + 1 }
  | .needs_revision => { c with needs_revision := c.needs_revision + 1 }

/-- The pure computation performed by `useStatusCounts`: start from a copy of
`EMPTY_COUNTS` and increment the matching field for each record. -/
def countByStatus (records : List RecordItem) : StatusCounts :=
  records.foldl (fun next r => bumpStatus next r.status) EMPTY_COUNTS

/-- JavaScript's `String.prototype.trim`: remove leading and trailing
whitespace characters. -/
def jsTrim (s : String) : String :=
  String.mk ((s.data.dropWhile Char.isWhitespace).rdropWhile Char.isWhitespace)

/-- The dialog's `requiresNote` value:
`status === "flagged" || status === "needs_revision"`. -/
def requiresNote (status : RecordStatus) : Bool :=
  status == .flagged || status == .needs_revision

/-- The dialog's `isValid` value:
`!requiresNote || (requiresNote && trimmedNote.length > 0)`. -/
def isValid (status : RecordStatus) (note : String) : Bool :=
  !(requiresNote status) || ((requiresNote status) && (jsTrim note).length != 0)

/-- The save button's `disabled` expression: `loading || !isValid`. -/
def saveButtonDisabled (loading : Bool) (status : RecordStatus) (note : String) :
    Bool :=
  loading || !(isValid status note)

/-- The decision taken by the synchronous prefix of the dialog's `handleSave`:
abort with a validation message, close as a no-op, or call
`updateRecord(record.id, payload)` with the dirty-field payload. -/
inductive SaveAction where
  | validationFailed (message : String)
  | closedNoop
  | updateCall (id : String) (payload : RecordUpdates)
deriving DecidableEq, Repr

/-- The dialog's `handleSave`, up to the `updateRecord` call: the defensive
validation check (`requiresNote && trimmedNote.length === 0`), the dirty-field
computation (`statusChanged = status !== record.status`, `noteChanged =
trimmedNote !== (record.note ?? "").trim()`), the no-op early close, and
otherwise the `updateRecord` call whose payload carries `status` only when
`statusChanged` and the trimmed note only when `noteChanged`. -/
def handleSave (record : RecordItem) (status : RecordStatus) (note : String) :
    SaveAction :=
  let trimmedNote := jsTrim note
  if requiresNote status && trimmedNote.length == 0 then
    .validationFailed "Note is required for flagged or needs revision statuses."
  else
    let statusChanged : Bool := status != record.status
    let noteChanged : Bool := trimmedNote != jsTrim (record.note.getD "")
    let isDirty := statusChanged || noteChanged
    if !isDirty then
      .closedNoop
    else
      .updateCall record.id
        { status := if statusChanged then some status else none,
          note := if noteChanged then some trimmedNote else none }

/-- Sample record mirroring the test fixture `Specimen A` (`pending`). -/
def sampleA : RecordItem :=
  { id := "1", name := "Specimen A", description := "Test description A",
    status := .pending }

/-- Sample record mirroring the test fixture `Specimen B` (`approved`). -/
def sampleB : RecordItem :=
  { id := "2", name := "Specimen B", description := "Test description B",
    status := .approved }

/-- The sample record `Specimen A` after the server applied
`{ status: flagged, note: "review" }`. -/
def sampleAFlagged : RecordItem :=
  { sampleA with status := .flagged, note := some "review" }

/-- The sample record `Specimen A` after the server applied
`{ status: approved, note: "y" }`. -/
def sampleAApproved : RecordItem :=
  { sampleA with status := .approved, note := some "y" }

/-- An idle orchestrator state holding the two sample records and an empty
history. -/
def twoRecState : RecordsState :=
  { records := [sampleA, sampleB], loading := false, error := none,
    history := [] }

/-- Claim C3: an `updateRecord` call whose network call fails leaves `records`
and `history` exactly as they were, sets `error` to the failure's message, and
re-throws the failure to the caller. -/
theorem C3_failed_update_preserves_state (s : RecordsState) (id : String)
    (updates : RecordUpdates) (msg now : String) :
    (updateRecord s id updates (ApiResult.err msg) now).1.records = s.records ∧
    (updateRecord s id updates (ApiResult.err msg) now).1.history = s.history ∧
    (updateRecord s id updates (ApiResult.err msg) now).1.error = some msg ∧
    (updateRecord s id updates (ApiResult.err msg) now).2 = some msg :=
  ⟨rfl, rfl, rfl, rfl⟩

/-- Claim C4: `fetchRecords` sets `loading := true` and `error := none` before
the network call; on success it replaces `records` wholesale with the fetched
sequence (leaving `error` clear); on failure it sets `error` to the failure
message and leaves `records` untouched; and on every exit path `loading` is
cleared back to `false`. -/
theorem C4_fetch_protocol (s : RecordsState)
    (result : ApiResult (List RecordItem)) :
    (fetchRecordsStart s).loading = true ∧
    (fetchRecordsStart s).error = none ∧
    (∀ nextRecords,
      (fetchRecords s (ApiResult.ok nextRecords)).records = nextRecords ∧
      (fetchRecords s (ApiResult.ok nextRecords)).error = none) ∧
    (∀ msg,
      (fetchRecords s (ApiResult.err msg)).error = some msg ∧
      (fetchRecords s (ApiResult.err msg)).records = s.records) ∧
    (fetchRecords s result).loading = false := by
  refine ⟨rfl, rfl, fun nextRecords => ⟨rfl, rfl⟩, fun msg => ⟨rfl, rfl⟩, ?_⟩
  cases result <;> rfl

/-- Claim C1 (failing evaluation): two successive status-changing updates to
`Specimen A` (`pending → flagged` at `t1`, then `flagged → approved` at `t2`)
leave the history with the OLDER entry at the front and the newer entry
appended at the back (`[pending→flagged, flagged→approved]`), i.e. the code
appends each new entry to the back of `history` (oldest-first), not to the
front (newest-first) as the specification states. -/
theorem C1_history_appended_at_back :
    (updateRecord
        (updateRecord twoRecState "1"
          { status := some .flagged, note := some "x" }
          (ApiResult.ok sampleAFlagged) "t1").1
        "1" { status := some .approved, note := some "y" }
        (ApiResult.ok sampleAApproved) "t2").1.history =
      [{ id := "1", previousStatus := .pending, newStatus := .flagged,
         note := some "x", timestamp := "t1" },
       { id := "1", previousStatus := .flagged, newStatus := .approved,
         note := some "y", timestamp := "t2" }] := by
  decide

/-- Claim C10: a successful `updateRecord` call whose `id` matches no record in
the collection (the server echoing a record with that same unknown id) leaves
`records` and `history` unchanged, leaves `error` clear, and throws nothing. -/
theorem C10_unknown_id_update_is_silent_noop (s : RecordsState) (id : String)
    (updates : RecordUpdates) (updated : RecordItem) (now : String)
    (habsent : ∀ r ∈ s.records, r.id ≠ id) (hid : updated.id = id) :
    (updateRecord s id updates (ApiResult.ok updated) now).1.records = s.records ∧
    (updateRecord s id updates (ApiResult.ok updated) now).1.history = s.history ∧
    (updateRecord s id updates (ApiResult.ok updated) now).1.error = none ∧
    (updateRecord s id updates (ApiResult.ok updated) now).2 = none := by
  have hfind : s.records.find? (fun r => r.id == id) = none := by
    rw [List.find?_eq_none]
    intro r hr
    simpa using habsent r hr
  have hmap : s.records.map (fun r => if r.id = updated.id then updated else r) =
      s.records := by
    rw [List.map_congr_left (g := fun r => r)
      (fun r hr => if_neg (by rw [hid]; exact habsent r hr))]
    exact List.map_id' s.records
  simp [updateRecord, hfind, hmap]

/-- Claim C10 witness: updating the two-record sample state with the unknown
id `99` (server echoing a record with id `99`) changes nothing and throws
nothing. -/
theorem C10_witness :
    (updateRecord twoRecState "99" { status := some .approved, note := none }
        (ApiResult.ok { id := "99", name := "Ghost", description := "g",
                        status := .approved }) "t").1.records =
      twoRecState.records ∧
    (updateRecord twoRecState "99" { status := some .approved, note := none }
        (ApiResult.ok { id := "99", name := "Ghost", description := "g",
                        status := .approved }) "t").1.history =
      twoRecState.history ∧
    (updateRecord twoRecState "99" { status := some .approved, note := none }
        (ApiResult.ok { id := "99", name := "Ghost", description := "g",
                        status := .approved }) "t").1.error = none ∧
    (updateRecord twoRecState "99" { status := some .approved, note := none }
        (ApiResult.ok { id := "99", name := "Ghost", description := "g",
                        status := .approved }) "t").2 = none :=
  C10_unknown_id_update_is_silent_noop twoRecState "99"
    { status := some .approved, note := none }
    { id := "99", name := "Ghost", description := "g", status := .approved }
    "t" (by decide) rfl

/-- Claim C2: a successful `updateRecord` call appends a history entry exactly
when a record with the given id existed in the snapshot, a `status` field was
provided, and that status differs from the snapshot's status; in every other
case (record absent, no status provided, or status unchanged — regardless of
any note change) the history is left exactly as it was. -/
theorem C2_history_entry_iff (s : RecordsState) (id : String)
    (updates : RecordUpdates) (updated : RecordItem) (now : String) :
    (∀ prev st,
      s.records.find? (fun r => r.id == id) = some prev →
      updates.status = some st → prev.status ≠ st →
      (updateRecord s id updates (ApiResult.ok updated) now).1.history =
        s.history ++
          [{ id := id, previousStatus := prev.status, newStatus := st,
             note := updates.note, timestamp := now }]) ∧
    ((¬ ∃ prev st, s.records.find? (fun r => r.id == id) = some prev ∧
        updates.status = some st ∧ prev.status ≠ st) →
      (updateRecord s id updates (ApiResult.ok updated) now).1.history =
        s.history) := by
  constructor
  · intro prev st hfind hst hne
    simp [updateRecord, hfind, hst, hne]
  · intro hnot
    cases hfind : s.records.find? (fun r => r.id == id) with
    | none => simp [updateRecord, hfind]
    | some prev =>
      cases hst : updates.status with
      | none => simp [updateRecord, hfind, hst]
      | some st =>
        have heq : prev.status = st := by
          by_contra hne
          exact hnot ⟨prev, st, hfind, hst, hne⟩
        simp [updateRecord, hfind, hst, heq]

/-- Claim C2 witness: updating `Specimen A` (`pending`) with
`{ status: flagged, note: "x" }` appends exactly the entry
`{ id: "1", previousStatus: pending, newStatus: flagged, note: "x" }`. -/
theorem C2_witness :
    (updateRecord twoRecState "1" { status := some .flagged, note := some "x" }
        (ApiResult.ok sampleAFlagged) "t1").1.history =
      twoRecState.history ++
        [{ id := "1", previousStatus := RecordStatus.pending,
           newStatus := .flagged, note := some "x", timestamp := "t1" }] :=
  (C2_history_entry_iff twoRecState "1"
      { status := some .flagged, note := some "x" } sampleAFlagged "t1").1
    sampleA .flagged (by decide) rfl (by decide)

/-- Claim C5: on a successful `updateRecord`, the records collection keeps its
length and order; every position whose record's id equals the server-returned
record's id now holds the server record, and every other position is
untouched. -/
theorem C5_merge_replaces_exactly_matching (s : RecordsState) (id : String)
    (updates : RecordUpdates) (updated : RecordItem) (now : String) :
    (updateRecord s id updates (ApiResult.ok updated) now).1.records.length =
      s.records.length ∧
    (∀ (i : Nat) (r : RecordItem), s.records[i]? = some r → r.id = updated.id →
      (updateRecord s id updates (ApiResult.ok updated) now).1.records[i]? =
        some updated) ∧
    (∀ (i : Nat) (r : RecordItem), s.records[i]? = some r → r.id ≠ updated.id →
      (updateRecord s id updates (ApiResult.ok updated) now).1.records[i]? =
        some r) := by
  have hrec : (updateRecord s id updates (ApiResult.ok updated) now).1.records =
      s.records.map (fun r => if r.id = updated.id then updated else r) := by
    cases hfind : s.records.find? (fun r => r.id == id) with
    | none => simp [updateRecord, hfind]
    | some prev =>
      cases hst : updates.status with
      | none => simp [updateRecord, hfind, hst]
      | some st =>
        by_cases h : prev.status = st <;> simp [updateRecord, hfind, hst, h]
  refine ⟨by rw [hrec, List.length_map], ?_, ?_⟩
  · intro i r hir hmatch
    rw [hrec, List.getElem?_map, hir]
    simp [hmatch]
  · intro i r hir hne
    rw [hrec, List.getElem?_map, hir]
    simp [hne]

/-- Claim C5 witness: in the two-record sample state, updating id `1` to
`flagged` replaces position 0 with the server record and leaves position 1
(`Specimen B`) untouched. -/
theorem C5_witness :
    (updateRecord twoRecState "1"
        { status := some .flagged, note := some "review" }
        (ApiResult.ok sampleAFlagged) "t").1.records[0]? = some sampleAFlagged ∧
    (updateRecord twoRecState "1"
        { status := some .flagged, note := some "review" }
        (ApiResult.ok sampleAFlagged) "t").1.records[1]? = some sampleB := by
  have h := C5_merge_replaces_exactly_matching twoRecState "1"
    { status := some .flagged, note := some "review" } sampleAFlagged "t"
  exact ⟨h.2.1 0 sampleA rfl rfl, h.2.2 1 sampleB rfl (by decide)⟩

/-- Dropping leading whitespace from a character list that already had its
leading whitespace dropped (and then possibly a suffix removed) changes
nothing. -/
theorem dropWhile_rdropWhile_dropWhile (l : List Char) :
    ((l.dropWhile Char.isWhitespace).rdropWhile
        Char.isWhitespace).dropWhile Char.isWhitespace =
      (l.dropWhile Char.isWhitespace).rdropWhile Char.isWhitespace := by
  rw [List.dropWhile_eq_self_iff]
  intro hl
  have hpre := List.rdropWhile_prefix Char.isWhitespace
    (l.dropWhile Char.isWhitespace)
  have hlt : 0 < (l.dropWhile Char.isWhitespace).length :=
    lt_of_lt_of_le hl hpre.length_le
  have h0 := List.dropWhile_get_zero_not Char.isWhitespace l hlt
  simp only [List.get_eq_getElem] at h0 ⊢
  rw [hpre.getElem hl]
  exact h0

/-- Trimming is idempotent: trimming an already-trimmed string changes
nothing. -/
theorem jsTrim_idem (s : String) : jsTrim (jsTrim s) = jsTrim s :=
  congrArg String.mk (by
    show (((s.data.dropWhile Char.isWhitespace).rdropWhile
        Char.isWhitespace).dropWhile Char.isWhitespace).rdropWhile
        Char.isWhitespace =
      (s.data.dropWhile Char.isWhitespace).rdropWhile Char.isWhitespace
    rw [dropWhile_rdropWhile_dropWhile, List.rdropWhile_idempotent])

/-- Claim C6: when the validation gate passes, `handleSave` includes `status`
in the update payload only if the draft status differs from the source
record's status, includes the trimmed note only if it differs from the source
record's note (an absent source note being treated as the empty string), and,
when neither field differs, closes immediately without issuing any
`updateRecord` call. -/
theorem C6_dirty_fields (record : RecordItem) (status : RecordStatus)
    (note : String) (hvalid : isValid status note = true) :
    (∀ (rid : String) (payload : RecordUpdates),
      handleSave record status note = SaveAction.updateCall rid payload →
      (∀ st, payload.status = some st → st = status ∧ status ≠ record.status) ∧
      (∀ n, payload.note = some n →
        n = jsTrim note ∧ n ≠ record.note.getD "")) ∧
    (status = record.status → jsTrim note = record.note.getD "" →
      handleSave record status note = SaveAction.closedNoop) := by
  have hguard : (requiresNote status && (jsTrim note).length == 0) = false := by
    cases hreq : requiresNote status with
    | false => simp [hreq]
    | true =>
      have hlen : ¬ (jsTrim note).length = 0 := by
        simpa [isValid, hreq] using hvalid
      simp [hreq, hlen]
  constructor
  · intro rid payload hcall
    cases hb1 : (status != record.status) with
    | false =>
      cases hb2 : (jsTrim note != jsTrim (record.note.getD "")) with
      | false =>
        have hred : handleSave record status note = SaveAction.closedNoop := by
          simp [handleSave, hguard, hb1, hb2]
        rw [hred] at hcall
        exact absurd hcall (by simp)
      | true =>
        have hred : handleSave record status note =
            SaveAction.updateCall record.id
              { status := none, note := some (jsTrim note) } := by
          simp [handleSave, hguard, hb1, hb2]
        rw [hred] at hcall
        injection hcall with h1 h2
        subst h2
        refine ⟨fun st hst => by simp at hst, fun n hn => ?_⟩
        have hn' : n = jsTrim note := (by simpa using hn : jsTrim note = n).symm
        refine ⟨hn', fun hcontra => ?_⟩
        rw [hn'] at hcontra
        rw [← hcontra, jsTrim_idem] at hb2
        simp at hb2
    | true =>
      have hne : status ≠ record.status := by simpa using hb1
      cases hb2 : (jsTrim note != jsTrim (record.note.getD "")) with
      | false =>
        have hred : handleSave record status note =
            SaveAction.updateCall record.id
              { status := some status, note := none } := by
          simp [handleSave, hguard, hb1, hb2]
        rw [hred] at hcall
        injection hcall with h1 h2
        subst h2
        refine ⟨fun st hst => ?_, fun n hn => by simp at hn⟩
        have : status = st := by simpa using hst
        exact ⟨this.symm, hne⟩
      | true =>
        have hred : handleSave record status note =
            SaveAction.updateCall record.id
              { status := some status, note := some (jsTrim note) } := by
          simp [handleSave, hguard, hb1, hb2]
        rw [hred] at hcall
        injection hcall with h1 h2
        subst h2
        refine ⟨fun st hst => ?_, fun n hn => ?_⟩
        · have : status = st := by simpa using hst
          exact ⟨this.symm, hne⟩
        · have hn' : n = jsTrim note := (by simpa using hn : jsTrim note = n).symm
          refine ⟨hn', fun hcontra => ?_⟩
          rw [hn'] at hcontra
          rw [← hcontra, jsTrim_idem] at hb2
          simp at hb2
  · intro hstatus hnote
    have hb1 : (status != record.status) = false := by simp [hstatus]
    have hb2 : (jsTrim note != jsTrim (record.note.getD "")) = false := by
      rw [← hnote, jsTrim_idem]
      simp
    simp [handleSave, hguard, hb1, hb2]

/-- Claim C6 witness: for `Specimen A` (`pending`, no note) with draft status
`approved` and empty note, the gate passes and the save issues an update whose
payload includes `status: approved` and omits `note` entirely. -/
theorem C6_witness :
    isValid RecordStatus.approved "" = true ∧
    handleSave sampleA RecordStatus.approved "" =
      SaveAction.updateCall "1" { status := some .approved, note := none } ∧
    RecordStatus.approved ≠ sampleA.status := by
  have h := C6_dirty_fields sampleA .approved "" (by decide)
  exact ⟨by decide, by decide,
    ((h.1 "1" { status := some .approved, note := none } (by decide)).1
      .approved rfl).2⟩

/-- Claim C7: whenever the draft status is `flagged` or `needs_revision` and
the draft note is empty after trimming, the validity gate fails, the save
button is disabled (whatever the loading flag), and an invoked save aborts
with the validation message instead of issuing any update call. -/
theorem C7_validation_gate (record : RecordItem) (status : RecordStatus)
    (note : String) (loading : Bool)
    (hreq : status = .flagged ∨ status = .needs_revision)
    (hempty : jsTrim note = "") :
    isValid status note = false ∧
    saveButtonDisabled loading status note = true ∧
    handleSave record status note =
      SaveAction.validationFailed
        "Note is required for flagged or needs revision statuses." := by
  have hreqb : requiresNote status = true := by
    rcases hreq with h | h <;> simp [requiresNote, h]
  have hlen : (jsTrim note).length = 0 := by rw [hempty]; rfl
  refine ⟨?_, ?_, ?_⟩
  · simp [isValid, hreqb, hlen]
  · simp [saveButtonDisabled, isValid, hreqb, hlen]
  · simp [handleSave, hreqb, hlen]

/-- Claim C7 witness: with draft status `flagged` and a whitespace-only note,
the gate fails, the save button is disabled, and an invoked save aborts with
the validation message. -/
theorem C7_witness :
    isValid RecordStatus.flagged " " = false ∧
    saveButtonDisabled false RecordStatus.flagged " " = true ∧
    handleSave sampleA RecordStatus.flagged " " =
      SaveAction.validationFailed
        "Note is required for flagged or needs revision statuses." :=
  C7_validation_gate sampleA .flagged " " false (Or.inl rfl) (by decide)

/-- Sample record mirroring the test fixture `Specimen C` (`flagged`). -/
def sampleC : RecordItem :=
  { id := "3", name := "Specimen C", description := "Test description C",
    status := .flagged, note := some "Existing note" }

/-- Claim C8: `filterByStatus` returns the collection itself for the `all`
filter; for a status filter it returns an order-preserving subsequence of the
collection, every element of which has the filtered status, containing as many
elements as the collection has records of that status (so exactly the matching
records, in their original relative order). -/
theorem C8_filter_by_status (R : List RecordItem) :
    filterByStatus R .all = R ∧
    ∀ s : RecordStatus,
      (filterByStatus R (.status s)).Sublist R ∧
      (∀ r ∈ filterByStatus R (.status s), r.status = s) ∧
      (∀ r ∈ R, r.status = s → r ∈ filterByStatus R (.status s)) ∧
      (filterByStatus R (.status s)).length =
        R.countP (fun r => r.status == s) := by
  refine ⟨rfl, fun s => ⟨List.filter_sublist R, ?_, ?_, ?_⟩⟩
  · intro r hr
    have := (List.mem_filter.mp hr).2
    simpa using this
  · intro r hr hstatus
    exact List.mem_filter.mpr ⟨hr, by simp [hstatus]⟩
  · exact (List.countP_eq_length_filter (fun r => r.status == s) R).symm

/-- Claim C8 witness: on the three sample records, the `all` filter returns
everything and the `pending` filter retains `Specimen A`. -/
theorem C8_witness :
    filterByStatus [sampleA, sampleB, sampleC] .all =
      [sampleA, sampleB, sampleC] ∧
    sampleA ∈ filterByStatus [sampleA, sampleB, sampleC]
      (.status .pending) := by
  have h := C8_filter_by_status [sampleA, sampleB, sampleC]
  exact ⟨h.1, (h.2 .pending).2.2.1 sampleA (by decide) rfl⟩

/-- The fold inside `countByStatus`, run from an arbitrary accumulator, adds
the per-status record counts to the accumulator's fields. -/
theorem countByStatus_go (R : List RecordItem) : ∀ acc : StatusCounts,
    R.foldl (fun next r => bumpStatus next r.status) acc =
      { pending := acc.pending + R.countP (fun r => r.status == .pending),
        approved := acc.approved + R.countP (fun r => r.status == .approved),
        flagged := acc.flagged + R.countP (fun r => r.status == .flagged),
        needs_revision :=
          acc.needs_revision +
            R.countP (fun r => r.status == .needs_revision) } := by
  induction R with
  | nil => intro acc; simp
  | cons r rest ih =>
    intro acc
    rw [List.foldl_cons, ih]
    cases h : r.status <;>
      simp [bumpStatus, h, List.countP_cons, StatusCounts.mk.injEq] <;> omega

/-- Claim C9: `countByStatus` carries all four status keys, each equal to the
number of records holding that status, and the four counts sum to the length
of the collection. -/
theorem C9_status_counts (R : List RecordItem) :
    (countByStatus R).pending = R.countP (fun r => r.status == .pending) ∧
    (countByStatus R).approved = R.countP (fun r => r.status == .approved) ∧
    (countByStatus R).flagged = R.countP (fun r => r.status == .flagged) ∧
    (countByStatus R).needs_revision =
      R.countP (fun r => r.status == .needs_revision) ∧
    (countByStatus R).pending + (countByStatus R).approved +
        (countByStatus R).flagged + (countByStatus R).needs_revision =
      R.length := by
  have hsum : R.countP (fun r => r.status == .pending) +
      R.countP (fun r => r.status == .approved) +
      R.countP (fun r => r.status == .flagged) +
      R.countP (fun r => r.status == .needs_revision) = R.length := by
    induction R with
    | nil => simp
    | cons r rest ih =>
      cases hs : r.status <;> simp [List.countP_cons, hs] <;> omega
  unfold countByStatus
  rw [countByStatus_go R EMPTY_COUNTS]
  simpa [EMPTY_COUNTS] using hsum

end Dashboard
